import Mathlib

/-!
Verification of the forjex commit-message generator
(`src/services/commit-generator.ts`) and repository sync orchestrator
(`src/services/git.ts`, `GitService.initAndPush`).

The TypeScript source is shallowly embedded: strings are handled at the
`List Char` level with hand-rolled helpers mirroring the exact JavaScript
string/regex operations used by the source, and the `simple-git` calls of
the orchestrator are modelled as an explicit operation trace driven by an
environment recording the outcome of every external call.
-/

namespace Forjex

/-- Apostrophe character (U+0027), used to build string constants that
contain one. -/
def apos : Char := Char.ofNat 39

/-- JavaScript whitespace (`\s`, also the set trimmed by
`String.prototype.trim`): ASCII whitespace plus the Unicode space
separators, NBSP, BOM and the line separators. -/
def isJsSpace (c : Char) : Bool :=
  c = ' ' || c = '\t' || c = '\n' || c = '\r' || c = '\x0b' || c = '\x0c' ||
  c = Char.ofNat 0xa0 || c = Char.ofNat 0x1680 || (0x2000 ≤ c.toNat && c.toNat ≤ 0x200a) ||
  c = Char.ofNat 0x2028 || c = Char.ofNat 0x2029 || c = Char.ofNat 0x202f || c = Char.ofNat 0x205f || c = Char.ofNat 0x3000 ||
  c = Char.ofNat 0xfeff

/-- `litLeads pat s` is true when `pat` is a prefix of `s`
(JS `String.prototype.startsWith`). -/
def litLeads : List Char → List Char → Bool
  | [], _ => true
  | _ :: _, [] => false
  | a :: as, b :: bs => a = b && litLeads as bs

/-- JS `String.prototype.includes`: `pat` occurs as a contiguous substring
of `s`. -/
def listIncludes (pat : List Char) : List Char → Bool
  | [] => pat.isEmpty
  | c :: cs => litLeads pat (c :: cs) || listIncludes pat cs

/-- `String`-level wrapper for `listIncludes`
(JS `s.includes(pat)`). -/
def jsIncludes (s pat : String) : Bool := listIncludes pat.data s.data

/-- JS `String.prototype.endsWith`. -/
def jsEndsWith (s pat : String) : Bool := litLeads pat.data.reverse s.data.reverse

/-- JS `String.prototype.trim` on a char list: strip leading and trailing
JS whitespace. -/
def jsTrimL (l : List Char) : List Char :=
  ((l.dropWhile isJsSpace).reverse.dropWhile isJsSpace).reverse

/-- JS `String.prototype.trim`. -/
def jsTrim (s : String) : String := ⟨jsTrimL s.data⟩

/-- JS `String.prototype.split` with a single-character separator. -/
def splitOnChar (sep : Char) : List Char → List (List Char)
  | [] => [[]]
  | c :: cs =>
    match splitOnChar sep cs with
    | [] => [[]]
    | r :: rs => if c = sep then [] :: r :: rs else (c :: r) :: rs

/-- ASCII lower-casing of one char (JS `toLowerCase` restricted to the
ASCII letters, the only ones the source's heuristics inspect). -/
def charToLower (c : Char) : Char :=
  if 'A' ≤ c && c ≤ 'Z' then Char.ofNat (c.toNat + 32) else c

/-- JS `String.prototype.toLowerCase` (ASCII). -/
def jsToLower (s : String) : String := ⟨s.data.map charToLower⟩

/-- First-occurrence deduplication with an accumulator of already seen
elements; helper for `jsSetDedup`. -/
def dedupFirst (seen : List String) : List String → List String
  | [] => []
  | x :: xs => if x ∈ seen then dedupFirst seen xs else x :: dedupFirst (x :: seen) xs

/-- JS `[...new Set(l)]`: keep the first occurrence of every element, in
order. -/
def jsSetDedup (l : List String) : List String := dedupFirst [] l

/-- JS `Array.prototype.join`. -/
def jsJoin (sep : String) : List String → String
  | [] => ""
  | [x] => x
  | x :: y :: xs => x ++ sep ++ jsJoin sep (y :: xs)

/-! ### A small matcher for the regular expressions used by the source

Every regex in `commit-generator.ts` is a sequence of literals and
greedy `+`/`*` repetitions of single-character classes, where each
repeated class is disjoint from the first character of the atom that
follows it (spaces before word chars, word chars before spaces or `=`,
non-quotes before a quote), so greedy matching never needs to backtrack.
The only exceptions are the test-only tails `.*=>`, `.*function` and
`.*from`, each final in its pattern, modelled by `dotStarLit` (a search
for the literal across non-line-terminator characters). -/

/-- Character classes appearing in the source's regexes. -/
inductive CharClass where
  | word      -- `\w` = [A-Za-z0-9_]
  | space     -- `\s`
  | anyNoNL   -- `.` (anything but a line terminator)
  | notQuote  -- `[^'"]`
  | quote     -- `['"]`
  | upper     -- `[A-Z]`
deriving DecidableEq

/-- Membership test of a `CharClass`. -/
def CharClass.test : CharClass → Char → Bool
  | .word, c => c.isAlpha || c.isDigit || c = '_'
  | .space, c => isJsSpace c
  | .anyNoNL, c => !(c = '\n' || c = '\r' || c = Char.ofNat 0x2028 || c = Char.ofNat 0x2029)
  | .notQuote, c => !(c = apos || c = '"')
  | .quote, c => c = apos || c = '"'
  | .upper, c => 'A' ≤ c && c ≤ 'Z'

/-- One atom of a regex: a literal, a single class character, a greedy
repetition of a class (`+` requires at least one), or a final `.*lit`
tail. `cap` marks the atoms whose matched text forms the extracted
capture. -/
inductive RAtom where
  | lit (s : String) (cap : Bool)
  | one (cl : CharClass) (cap : Bool)
  | many1 (cl : CharClass) (cap : Bool)
  | many0 (cl : CharClass) (cap : Bool)
  | dotStarLit (s : String)

/-- Search for `pat` at some offset reachable across `.`-matchable
characters; returns the remainder after `pat`. -/
def findLitOverDots (pat : List Char) : List Char → Option (List Char)
  | [] => if pat.isEmpty then some [] else none
  | c :: cs =>
    if litLeads pat (c :: cs) then some ((c :: cs).drop pat.length)
    else if CharClass.anyNoNL.test c then findLitOverDots pat cs
    else none

/-- Match a sequence of atoms against a prefix of `s`, returning the
concatenated captured characters on success. -/
def matchSeq : List RAtom → List Char → Option (List Char)
  | [], _ => some []
  | .lit pat cap :: rest, s =>
    if litLeads pat.data s then
      (matchSeq rest (s.drop pat.data.length)).map
        (fun caps => (if cap then pat.data else []) ++ caps)
    else none
  | .one cl cap :: rest, s =>
    match s with
    | [] => none
    | c :: cs =>
      if cl.test c then
        (matchSeq rest cs).map (fun caps => (if cap then [c] else []) ++ caps)
      else none
  | .many1 cl cap :: rest, s =>
    let run := s.takeWhile cl.test
    if run.length = 0 then none
    else
      (matchSeq rest (s.drop run.length)).map
        (fun caps => (if cap then run else []) ++ caps)
  | .many0 cl cap :: rest, s =>
    let run := s.takeWhile cl.test
    (matchSeq rest (s.drop run.length)).map
      (fun caps => (if cap then run else []) ++ caps)
  | .dotStarLit pat :: rest, s =>
    match findLitOverDots pat.data s with
    | some s' => matchSeq rest s'
    | none => none

/-- Try the alternatives of a pattern, in order, at the current
position. -/
def tryAlts : List (List RAtom) → List Char → Option (List Char)
  | [], _ => none
  | a :: as, s =>
    match matchSeq a s with
    | some caps => some caps
    | none => tryAlts as s

/-- Unanchored search (JS `String.prototype.match`): positions are tried
left to right; at each position the alternatives are tried in order. -/
def regexSearch (alts : List (List RAtom)) : List Char → Option (List Char)
  | [] => tryAlts alts []
  | c :: cs =>
    match tryAlts alts (c :: cs) with
    | some caps => some caps
    | none => regexSearch alts cs

/-! ### The concrete regexes of `commit-generator.ts` -/

/-- Test for `/function\s+\w+|const\s+\w+\s*=.*=>|async.*function/`
(added-line function detection). -/
def funcTestAdded (content : List Char) : Bool :=
  (regexSearch
    [[.lit "function" false, .many1 .space false, .many1 .word false],
     [.lit "const" false, .many1 .space false, .many1 .word false,
      .many0 .space false, .lit "=" false, .dotStarLit "=>"],
     [.lit "async" false, .dotStarLit "function"]] content).isSome

/-- Capture of `/function\s+(\w+)|const\s+(\w+)\s*=/` (the declared
name, first alternative that matches wins). -/
def funcCapture (content : List Char) : Option String :=
  (regexSearch
    [[.lit "function" false, .many1 .space false, .many1 .word true],
     [.lit "const" false, .many1 .space false, .many1 .word true,
      .many0 .space false, .lit "=" false]] content).map (⟨·⟩)

/-- Capture of `/class\s+(\w+)/`. -/
def classCapture (content : List Char) : Option String :=
  (regexSearch
    [[.lit "class" false, .many1 .space false, .many1 .word true]] content).map (⟨·⟩)

/-- Test for `/import.*from/`. -/
def importTest (content : List Char) : Bool :=
  (regexSearch [[.lit "import" false, .dotStarLit "from"]] content).isSome

/-- Capture of `/from\s+['"]([^'"]+)['"]/` (quoted module specifier). -/
def moduleCapture (content : List Char) : Option String :=
  (regexSearch
    [[.lit "from" false, .many1 .space false, .one .quote false,
      .many1 .notQuote true, .one .quote false]] content).map (⟨·⟩)

/-- Capture of `/<([A-Z]\w+)/` (JSX-like component tag); the same
pattern without the group is the branch's test. -/
def componentCapture (content : List Char) : Option String :=
  (regexSearch
    [[.lit "<" false, .one .upper true, .many1 .word true]] content).map (⟨·⟩)

/-- Whole-match text of `/use\w+/` (hook name). -/
def useCapture (content : List Char) : Option String :=
  (regexSearch [[.lit "use" true, .many1 .word true]] content).map (⟨·⟩)

/-- Test for `/function\s+\w+|const\s+\w+\s*=/` (removed-line function
detection). -/
def funcTestRemoved (content : List Char) : Bool :=
  (regexSearch
    [[.lit "function" false, .many1 .space false, .many1 .word false],
     [.lit "const" false, .many1 .space false, .many1 .word false,
      .many0 .space false, .lit "=" false]] content).isSome

/-! ### The diff parser (`CommitMessageGenerator.extractFileChanges`) -/

/-- The per-file record built by the parser (interface `FileChange`).
`modified` exists in the source but is never written or read. -/
structure FileChange where
  file : String
  added : List String
  removed : List String
  modified : List String
deriving DecidableEq

/-- `const funcName = funcMatch ? (funcMatch[1] || funcMatch[2]) : 'function'`. -/
def funcNameOf (content : List Char) : String :=
  (funcCapture content).getD "function"

/-- `importMatch?.[1]?.split('/').pop() || 'dependency'`. -/
def moduleNameOf (content : List Char) : String :=
  match moduleCapture content with
  | none => "dependency"
  | some m =>
    let last := (splitOnChar '/' m.data).getLastD []
    if last = [] then "dependency" else ⟨last⟩

/-- Token pushed onto `currentChange.added` for one added line (empty
list when the line yields no token), following the source's ordered
`if`/`else if` chain verbatim. `content` is the line body after the
leading `+`, already trimmed. -/
def addedTokenOf (content : List Char) : List String :=
  if content = [] then []
  else if listIncludes "<button".data content || listIncludes "Button".data content then
    ["button"]
  else if listIncludes "<input".data content || listIncludes "Input".data content then
    ["input field"]
  else if listIncludes "<form".data content || listIncludes "Form".data content then
    ["form"]
  else if funcTestAdded content then
    [funcNameOf content]
  else if (classCapture content).isSome then
    [(classCapture content).getD "undefined" ++ " class"]
  else if importTest content then
    [moduleNameOf content ++ " import"]
  else if (componentCapture content).isSome then
    [(componentCapture content).getD "undefined" ++ " component"]
  else if listIncludes "useState".data content || listIncludes "useEffect".data content then
    [(useCapture content).getD "undefined" ++ " hook"]
  else if content.length > 10 && !litLeads "//".data content && !litLeads "/*".data content then
    -- `content.substring(0, 30).replace(/[^\w\s]/g, '').trim()`
    let preview := jsTrimL ((content.take 30).filter
      (fun c => CharClass.word.test c || CharClass.space.test c))
    if preview ≠ [] then ["content"] else []
  else []

/-- Token pushed onto `currentChange.removed` for one removed line. -/
def removedTokenOf (content : List Char) : List String :=
  if content = [] then []
  else if listIncludes "<button".data content || listIncludes "Button".data content then
    ["button"]
  else if funcTestRemoved content then
    [funcNameOf content]
  else if content.length > 10 && !litLeads "//".data content then
    ["code"]
  else []

/-- The `+`/`-` analysis of one non-header diff line against the open
change record; only `added`/`removed` are touched. -/
def processContentLine (line : List Char) (ch : FileChange) : FileChange :=
  let ch1 :=
    if litLeads "+".data line && !litLeads "+++".data line then
      { ch with added := ch.added ++ addedTokenOf (jsTrimL (line.drop 1)) }
    else ch
  if litLeads "-".data line && !litLeads "---".data line then
    { ch1 with removed := ch1.removed ++ removedTokenOf (jsTrimL (line.drop 1)) }
  else ch1

/-- Match of `/^\+\+\+ b\/(.+)$/` on one diff line: the line starts with
`+++ b/`, and the capture — everything after, which must be non-empty
and free of line terminators (`.` excludes them and `$` is the end of
the line) — is the path of the file change that the header opens. -/
def headerPath (line : List Char) : Option String :=
  if litLeads "+++ b/".data line then
    if line.drop 6 ≠ [] ∧ (line.drop 6).all (CharClass.anyNoNL.test ·) = true then
      some ⟨line.drop 6⟩
    else none
  else none

/-- The loop state of `extractFileChanges`: the accumulated records, the
path of the currently open file (empty when none is open yet), and the
record under construction. -/
structure ParseState where
  fileChanges : List FileChange
  currentFile : String
  currentChange : FileChange
deriving DecidableEq

/-- `if (currentFile && currentChange.file) fileChanges.push(currentChange)`
— the flush that runs at every new header and once after the loop. -/
def flushParse (st : ParseState) : List FileChange :=
  if st.currentFile ≠ "" ∧ st.currentChange.file ≠ "" then
    st.fileChanges ++ [st.currentChange]
  else st.fileChanges

/-- One iteration of the scanning loop of `extractFileChanges`. -/
def processDiffLine (st : ParseState) (line : List Char) : ParseState :=
  match headerPath line with
  | some path => ⟨flushParse st, path, ⟨path, [], [], []⟩⟩
  | none =>
    if st.currentFile = "" then st
    else { st with currentChange := processContentLine line st.currentChange }

/-- `CommitMessageGenerator.extractFileChanges`: split the diff on
newlines, scan, and flush the last open record. -/
def extractFileChanges (diff : String) : List FileChange :=
  flushParse ((splitOnChar '\n' diff.data).foldl processDiffLine ⟨[], "", ⟨"", [], [], []⟩⟩)

/-! ### The classifier (`CommitMessageGenerator.detectCommitType`) -/

/-- Rule 1 condition: `file.endsWith('.md') || file.includes('README')`. -/
def isDocsFile (file : String) : Bool :=
  jsEndsWith file ".md" || jsIncludes file "README"

/-- Rule 2 condition: `file.includes('test') || file.includes('.spec.') ||
file.includes('.test.')`. -/
def isTestFile (file : String) : Bool :=
  jsIncludes file "test" || jsIncludes file ".spec." || jsIncludes file ".test."

/-- Rule 3 condition: `file.endsWith('.css') || file.endsWith('.scss') ||
file.includes('style')`. -/
def isStyleFile (file : String) : Bool :=
  jsEndsWith file ".css" || jsEndsWith file ".scss" || jsIncludes file "style"

/-- Rule 4 condition: `file.includes('config') || file === 'package.json'`. -/
def isConfigFile (file : String) : Bool :=
  jsIncludes file "config" || file = "package.json"

/-- Rule 6 condition: `file.toLowerCase().includes('fix') ||
file.toLowerCase().includes('bug')`. -/
def isFixFile (file : String) : Bool :=
  jsIncludes (jsToLower file) "fix" || jsIncludes (jsToLower file) "bug"

/-- `CommitMessageGenerator.detectCommitType`, the ordered rule chain. -/
def detectCommitType (change : FileChange) : String :=
  if isDocsFile change.file then "docs"
  else if isTestFile change.file then "test"
  else if isStyleFile change.file then "style"
  else if isConfigFile change.file then "chore"
  else if change.added.length > change.removed.length ∧ change.added.length > 2 then "feat"
  else if isFixFile change.file then "fix"
  else if change.removed.length > change.added.length then "refactor"
  else "chore"

/-! ### The description builder
(`CommitMessageGenerator.buildSpecificDescription`) -/

/-- `CommitMessageGenerator.buildSpecificDescription`. -/
def buildSpecificDescription (change : FileChange) (fileName : String) : String :=
  let parts1 : List String :=
    if change.added.length > 0 then
      let uniqueAdded := jsSetDedup change.added
      if uniqueAdded.length = 1 then
        ["add " ++ uniqueAdded.headD "" ++ " to " ++ fileName]
      else if uniqueAdded.length = 2 then
        ["add " ++ uniqueAdded.headD "" ++ " and " ++ (uniqueAdded.getD 1 "") ++
          " to " ++ fileName]
      else
        ["add " ++ jsJoin ", " (uniqueAdded.take 2) ++ " to " ++ fileName]
    else []
  let parts2 : List String :=
    if change.removed.length > 0 then
      let uniqueRemoved := jsSetDedup change.removed
      if uniqueRemoved.length = 1 then
        if parts1.length > 0 then parts1 ++ ["remove " ++ uniqueRemoved.headD ""]
        else parts1 ++ ["remove " ++ uniqueRemoved.headD "" ++ " from " ++ fileName]
      else
        if parts1.length > 0 then parts1 ++ ["remove " ++ toString uniqueRemoved.length ++ " items"]
        else parts1 ++ ["remove " ++ toString uniqueRemoved.length ++ " items from " ++ fileName]
    else parts1
  let parts3 : List String :=
    if change.added.length > 0 ∧ change.removed.length > 0 ∧ parts2.length = 0 then
      parts2 ++ ["update " ++ fileName]
    else parts2
  let parts4 : List String :=
    if parts3.length = 0 then
      if change.added.length > 0 then ["update " ++ fileName]
      else if change.removed.length > 0 then ["clean up " ++ fileName]
      else ["modify " ++ fileName]
    else parts3
  jsJoin " and " parts4

/-! ### The synthesizer (`CommitMessageGenerator`) -/

/-- `CommitMessageGenerator.analyzeSpecificChanges`: classify and
describe the first file change (`fileChanges[0]`), or fall back. -/
def analyzeSpecificChanges (diff : String) : String :=
  match extractFileChanges diff with
  | [] => "chore: update code"
  | primaryChange :: _ =>
    -- `primaryChange.file.split('/').pop() || primaryChange.file`
    let last := (splitOnChar '/' primaryChange.file.data).getLastD []
    let fileName := if last = [] then primaryChange.file else (⟨last⟩ : String)
    detectCommitType primaryChange ++ ": " ++ buildSpecificDescription primaryChange fileName

/-- `CommitMessageGenerator.generateCommitMessage`, with the two
`execSync` reads made explicit: `none` means the subprocess threw (the
surrounding `try`/`catch` then yields the fallback literal). The `Bool`
records whether `analyzeSpecificChanges` (parser → classifier → builder)
was invoked. The unstaged diff is read only when the staged diff is
blank, and only its blankness is consulted. -/
def generateCommitMessageRun (stagedRead unstagedRead : Option String) :
    String × Bool :=
  match stagedRead with
  | none => ("chore: update code", false)
  | some diff =>
    if jsTrim diff = "" then
      match unstagedRead with
      | none => ("chore: update code", false)
      | some unstagedDiff =>
        if jsTrim unstagedDiff = "" then ("chore: update code", false)
        else (analyzeSpecificChanges diff, true)
    else (analyzeSpecificChanges diff, true)

/-- The returned commit message for successfully read diffs. -/
def generateCommitMessage (stagedDiff unstagedDiff : String) : String :=
  (generateCommitMessageRun (some stagedDiff) (some unstagedDiff)).1

/-! ### The repository sync orchestrator (`GitService.initAndPush`)

Each `simple-git` call (and the call into the commit-message generator)
is recorded, in program order, in a trace of `GitOp`s. A `GitEnv` fixes
the outcome of every external call; a failing call throws, which the
surrounding `try`/`catch` turns into the `Failed` terminal outcome —
except for the two inner `try`/`catch`es (branch setup, pull), which
are modelled exactly where the source has them. -/

/-- One external operation performed by `initAndPush`.
`listRemotes` (`getRemotes`) and `branchQuery` (`branch`/`branchLocal`)
are read-only queries; `generateMessage` is the call into
`CommitMessageGenerator.generateCommitMessage`. -/
inductive GitOp where
  | init
  | checkoutNewBranch (branch : String)
  | checkoutBranch (branch : String)
  | listRemotes
  | branchQuery
  | removeRemote (name : String)
  | addRemote (name url : String)
  | addAll
  | generateMessage
  | commit (message : String)
  | pull (remote branch : String) (opts : List String)
  | push (remote branch : String) (opts : List String)
deriving DecidableEq

/-- Whether an operation mutates the repository (everything except the
read-only queries and the message synthesis). -/
def GitOp.mutates : GitOp → Bool
  | .listRemotes | .branchQuery | .generateMessage => false
  | _ => true

/-- Terminal outcome of one `initAndPush` invocation: `Done` when the
final `spinner.succeed` is reached, `Failed` when an error propagates to
the outer `catch` (which re-throws). -/
inductive SyncOutcome where
  | Done
  | Failed
deriving DecidableEq

/-- Trace, warnings printed (the `Could not pull` console message), and
terminal outcome of one invocation. -/
structure SyncResult where
  trace : List GitOp
  warnings : List String
  outcome : SyncOutcome
deriving DecidableEq

/-- Outcomes of the external calls for one invocation. A `*Fails` flag
set means that call throws; `pullResult = some msg` means the pull
throws with message `msg`; `generatedMessage` is the string the
synthesizer returns (it never throws). `isRepo` is `existsSync('.git')`,
`hasOrigin` whether `getRemotes` lists an `origin` remote,
`localBranches` the `branchLocal().all` listing. -/
structure GitEnv where
  isRepo : Bool
  initFails : Bool
  checkoutNewBranchFails : Bool
  checkoutNewBranchRetryFails : Bool
  checkoutFails : Bool
  getRemotesFails : Bool
  hasOrigin : Bool
  removeRemoteFails : Bool
  addRemoteFails : Bool
  addFails : Bool
  generatedMessage : String
  commitFails : Bool
  pullResult : Option String
  pushFails : Bool
  branchQueryFails : Bool
  localBranches : List String
deriving DecidableEq

/-- The message substring that marks a benign pull failure (the remote
branch does not exist yet): `couldn't find remote ref`. -/
def refNotFound : String := "couldn" ++ ⟨[apos]⟩ ++ "t find remote ref"

/-- Existing-repo path, `if (!isRepo) { init; try checkoutLocalBranch
catch checkout }`: the operations attempted and whether the block
completed without a propagating error. -/
def initPhase (env : GitEnv) : List GitOp × Bool :=
  if env.isRepo then ([], true)
  else if env.initFails then ([.init], false)
  else if !env.checkoutNewBranchFails then
    ([.init, .checkoutNewBranch "main"], true)
  else if env.checkoutFails then
    ([.init, .checkoutNewBranch "main", .checkoutBranch "main"], false)
  else ([.init, .checkoutNewBranch "main", .checkoutBranch "main"], true)

/-- Existing-repo path, remote reassignment: `getRemotes`, then either
remove-and-re-add `origin` or add it fresh. -/
def remotePhase (env : GitEnv) (repoUrl : String) : List GitOp × Bool :=
  if env.getRemotesFails then ([.listRemotes], false)
  else if env.hasOrigin then
    if env.removeRemoteFails then ([.listRemotes, .removeRemote "origin"], false)
    else if env.addRemoteFails then
      ([.listRemotes, .removeRemote "origin", .addRemote "origin" repoUrl], false)
    else ([.listRemotes, .removeRemote "origin", .addRemote "origin" repoUrl], true)
  else
    if env.addRemoteFails then ([.listRemotes, .addRemote "origin" repoUrl], false)
    else ([.listRemotes, .addRemote "origin" repoUrl], true)

/-- Existing-repo path: `add('.')`, synthesize the message, `commit`. -/
def commitPhaseExisting (env : GitEnv) : List GitOp × Bool :=
  if env.addFails then ([.addAll], false)
  else if env.commitFails then
    ([.addAll, .generateMessage, .commit env.generatedMessage], false)
  else ([.addAll, .generateMessage, .commit env.generatedMessage], true)

/-- The attempted pull, `pull('origin', 'main', ['--rebase',
'--allow-unrelated-histories'])` wrapped in its own `try`/`catch`: a
failure whose message contains `refNotFound` is swallowed; any other
failure is logged as a warning. Either way the flow continues. -/
def pullPhase (env : GitEnv) : List GitOp × List String :=
  let op := GitOp.pull "origin" "main" ["--rebase", "--allow-unrelated-histories"]
  match env.pullResult with
  | none => ([op], [])
  | some msg =>
    if jsIncludes msg refNotFound then ([op], [])
    else ([op], ["Could not pull: " ++ msg])

/-- `initAndPush` with `isExistingRepo = true`. -/
def initAndPushExisting (env : GitEnv) (repoUrl : String) : SyncResult :=
  let p1 := initPhase env
  if p1.2 = false then ⟨p1.1, [], .Failed⟩
  else
    let p2 := remotePhase env repoUrl
    if p2.2 = false then ⟨p1.1 ++ p2.1, [], .Failed⟩
    else
      let p3 := commitPhaseExisting env
      if p3.2 = false then ⟨p1.1 ++ p2.1 ++ p3.1, [], .Failed⟩
      else
        let p4 := pullPhase env
        ⟨p1.1 ++ p2.1 ++ p3.1 ++ p4.1 ++ [.push "origin" "main" ["--set-upstream"]],
         p4.2, if env.pushFails then .Failed else .Done⟩

/-- New-repo path, branch setup: `try { branch(); branchLocal();
if (!branches.all.includes('main')) checkoutLocalBranch else checkout }
catch { checkoutLocalBranch }`. -/
def branchPhaseNew (env : GitEnv) : List GitOp × Bool :=
  if env.branchQueryFails then
    ([.branchQuery, .checkoutNewBranch "main"], !env.checkoutNewBranchFails)
  else if !(env.localBranches.contains "main") then
    if !env.checkoutNewBranchFails then ([.branchQuery, .checkoutNewBranch "main"], true)
    else ([.branchQuery, .checkoutNewBranch "main", .checkoutNewBranch "main"],
          !env.checkoutNewBranchRetryFails)
  else
    if !env.checkoutFails then ([.branchQuery, .checkoutBranch "main"], true)
    else ([.branchQuery, .checkoutBranch "main", .checkoutNewBranch "main"],
          !env.checkoutNewBranchFails)

/-- `initAndPush` with `isExistingRepo = false`: init, branch setup,
`add('.')`, `commit('Initial commit from Forjex')`, `addRemote`,
`push('origin', 'main', ['--set-upstream'])`. No pull, no call into the
message synthesizer. -/
def initAndPushNew (env : GitEnv) (repoUrl : String) : SyncResult :=
  if env.initFails then ⟨[.init], [], .Failed⟩
  else
    let bp := branchPhaseNew env
    let t2 := GitOp.init :: bp.1
    if bp.2 = false then ⟨t2, [], .Failed⟩
    else if env.addFails then ⟨t2 ++ [.addAll], [], .Failed⟩
    else if env.commitFails then
      ⟨t2 ++ [.addAll, .commit "Initial commit from Forjex"], [], .Failed⟩
    else if env.addRemoteFails then
      ⟨t2 ++ [.addAll, .commit "Initial commit from Forjex",
              .addRemote "origin" repoUrl], [], .Failed⟩
    else if env.pushFails then
      ⟨t2 ++ [.addAll, .commit "Initial commit from Forjex",
              .addRemote "origin" repoUrl, .push "origin" "main" ["--set-upstream"]],
       [], .Failed⟩
    else
      ⟨t2 ++ [.addAll, .commit "Initial commit from Forjex",
              .addRemote "origin" repoUrl, .push "origin" "main" ["--set-upstream"]],
       [], .Done⟩

/-- `GitService.initAndPush(repoUrl, isExistingRepo)`. -/
def initAndPush (env : GitEnv) (repoUrl : String) (isExistingRepo : Bool) : SyncResult :=
  if isExistingRepo then initAndPushExisting env repoUrl else initAndPushNew env repoUrl

/-- All existing-path operations before the pull succeed. -/
def prePullOk (env : GitEnv) (repoUrl : String) : Prop :=
  (initPhase env).2 = true ∧ (remotePhase env repoUrl).2 = true ∧
    (commitPhaseExisting env).2 = true

instance (env : GitEnv) (repoUrl : String) : Decidable (prePullOk env repoUrl) := by
  unfold prePullOk; infer_instance

/-! ## Helper lemmas -/

/-- `detectCommitType` always returns one of the seven literal commit
types. -/
lemma detectCommitType_cases (c : FileChange) :
    detectCommitType c = "docs" ∨ detectCommitType c = "test" ∨
    detectCommitType c = "style" ∨ detectCommitType c = "chore" ∨
    detectCommitType c = "feat" ∨ detectCommitType c = "fix" ∨
    detectCommitType c = "refactor" := by
  unfold detectCommitType
  repeat' split
  all_goals decide

/-- Deduplication returns the empty list only on the empty list. -/
lemma jsSetDedup_eq_nil_iff (l : List String) : jsSetDedup l = [] ↔ l = [] := by
  cases l with
  | nil => simp [jsSetDedup, dedupFirst]
  | cons x xs => simp [jsSetDedup, dedupFirst]

/-! ## Claims C2, C3, C4, C7, C8 -/

/-- The staged diff of claim C2: a `+++ b/utils.ts` header followed by
one added function-declaration line for `foo`. -/
def c2Diff : String := "+++ b/utils.ts\n+function foo()"

/-- Claim C2, counterexample: for the C2 input the synthesized message
is not `feat: add foo function to utils` (the name-status listing does
not reach the generator at all, so only the diff matters). -/
theorem singleFunctionDiff_not_claimed_message :
    analyzeSpecificChanges c2Diff ≠ "feat: add foo function to utils" := by
  decide

/-- Claim C2, amended: for the C2 input the synthesized message is
`chore: add foo to utils.ts` — the type is `chore` because the `feat`
rule requires strictly more than two added tokens, and the description
keeps the full file name and does not append the word `function`. -/
theorem singleFunctionDiff_message :
    analyzeSpecificChanges c2Diff = "chore: add foo to utils.ts" := by
  decide

/-- Claim C3, counterexample: a change set with one added function token
(and none of the docs/test/style/config rules applicable) is classified
`chore`, not `feat`; an `Added`-status entry could not change this since
the classifier never receives status entries. -/
theorem addedFunctionToken_not_feat :
    detectCommitType ⟨"main.ts", ["newHelper"], [], []⟩ ≠ "feat" ∧
    detectCommitType ⟨"main.ts", ["newHelper"], [], []⟩ = "chore" := by
  decide

/-- Claim C3, amended: when none of the docs/test/style/config rules
applies, the commit type is `feat` exactly when the added-token count
exceeds the removed-token count and is bigger than two; added
`Function`/`Class`/`Component` tokens or `Added`-status entries do not
by themselves produce `feat`. -/
theorem detectCommitType_feat_iff (c : FileChange)
    (h1 : isDocsFile c.file = false) (h2 : isTestFile c.file = false)
    (h3 : isStyleFile c.file = false) (h4 : isConfigFile c.file = false) :
    detectCommitType c = "feat" ↔
      c.added.length > c.removed.length ∧ c.added.length > 2 := by
  unfold detectCommitType
  simp only [h1, h2, h3, h4, Bool.false_eq_true, if_false]
  split
  · simp_all
  · constructor
    · intro h
      exfalso
      revert h
      repeat' split
      all_goals decide
    · intro h
      simp_all

/-- Witness for `detectCommitType_feat_iff`. -/
theorem detectCommitType_feat_iff_witness :
    detectCommitType ⟨"main.ts", ["a", "b", "c"], [], []⟩ = "feat" :=
  (detectCommitType_feat_iff ⟨"main.ts", ["a", "b", "c"], [], []⟩
    (by decide) (by decide) (by decide) (by decide)).mpr (by decide)

/-- The two-files-in-one-directory diff of claim C4 (both touched paths
have parent directory `a`, so the claim's scope rule would make the
scope `a`). -/
def c4Diff : String := "+++ b/a/x.ts\n+function foo()\n+++ b/a/y.ts\n+function bar()"

/-- Claim C4, counterexample: for a change set where the claim requires
scope `a` to be present and rendered as `type(a): description`, the
synthesized message contains no `(` at all — no scope is ever
computed. -/
theorem scope_never_rendered :
    jsIncludes (analyzeSpecificChanges c4Diff) "(" = false ∧
    analyzeSpecificChanges c4Diff = "chore: add foo to x.ts" := by
  decide

/-- Claim C4, amended: the synthesizer never computes a scope; every
message is rendered as `type: description`, the type being one of the
seven literal commit types. -/
theorem analyzeSpecificChanges_shape (d : String) :
    ∃ t descr, analyzeSpecificChanges d = t ++ ": " ++ descr ∧
      (t = "docs" ∨ t = "test" ∨ t = "style" ∨ t = "chore" ∨
       t = "feat" ∨ t = "fix" ∨ t = "refactor") := by
  unfold analyzeSpecificChanges
  cases h : extractFileChanges d with
  | nil => exact ⟨"chore", "update code", by decide, by decide⟩
  | cons c cs => exact ⟨detectCommitType c, _, rfl, detectCommitType_cases c⟩

/-- Claim C7: any change set whose path matches documentation (`.md`
suffix or `README` substring) is classified `docs`, whatever its token
content; consequently a diff whose primary change set touches
`README.md` yields a message starting `docs: `. -/
theorem docs_classification :
    (∀ change : FileChange, isDocsFile change.file = true →
      detectCommitType change = "docs") ∧
    (∀ (d : String) (c : FileChange) (cs : List FileChange),
      extractFileChanges d = c :: cs → isDocsFile c.file = true →
      ∃ descr, analyzeSpecificChanges d = "docs: " ++ descr) := by
  constructor
  · intro change h
    unfold detectCommitType
    simp [h]
  · intro d c cs h hdocs
    refine ⟨buildSpecificDescription c
      (if (splitOnChar '/' c.file.data).getLastD [] = [] then c.file
       else (⟨(splitOnChar '/' c.file.data).getLastD []⟩ : String)), ?_⟩
    unfold analyzeSpecificChanges
    rw [h]
    have ht : detectCommitType c = "docs" := by unfold detectCommitType; simp [hdocs]
    dsimp only
    rw [ht]
    exact congrArg (· ++ _) (by decide)

/-- Witness for `docs_classification`. -/
theorem docs_classification_witness :
    detectCommitType ⟨"README.md", ["a", "b", "c", "d"], [], []⟩ = "docs" :=
  docs_classification.1 ⟨"README.md", ["a", "b", "c", "d"], [], []⟩ (by decide)

/-- Claim C8, counterexample: duplicate occurrences of the same token do
change the classified commit type — three copies of the `content` token
classify as `feat`, a single copy as `chore` (the classifier counts raw,
non-deduplicated tokens). -/
theorem duplicate_tokens_change_type :
    ¬ (detectCommitType ⟨"main.ts", ["content", "content", "content"], [], []⟩ =
       detectCommitType ⟨"main.ts", ["content"], [], []⟩) := by
  decide

/-- Claim C8, amended: only the description builder deduplicates (by
token content): the built description is unchanged under any change to
the token lists that preserves their deduplications, while the commit
type depends on the raw token counts. -/
theorem buildSpecificDescription_dedup_invariant
    (f f' : String) (m m' a a' r r' : List String) (fn : String)
    (h₁ : jsSetDedup a = jsSetDedup a') (h₂ : jsSetDedup r = jsSetDedup r') :
    buildSpecificDescription ⟨f, a, r, m⟩ fn =
      buildSpecificDescription ⟨f', a', r', m'⟩ fn := by
  have hae : (a = []) ↔ (a' = []) := by
    rw [← jsSetDedup_eq_nil_iff a, ← jsSetDedup_eq_nil_iff a', h₁]
  have hre : (r = []) ↔ (r' = []) := by
    rw [← jsSetDedup_eq_nil_iff r, ← jsSetDedup_eq_nil_iff r', h₂]
  have ha : (a.length > 0) = (a'.length > 0) := by
    simp only [gt_iff_lt, List.length_pos, ne_eq, hae]
  have hr : (r.length > 0) = (r'.length > 0) := by
    simp only [gt_iff_lt, List.length_pos, ne_eq, hre]
  simp only [buildSpecificDescription, h₁, h₂, ha, hr]

/-- Witness for `buildSpecificDescription_dedup_invariant`. -/
theorem buildSpecificDescription_dedup_invariant_witness :
    buildSpecificDescription ⟨"a.ts", ["x", "x"], [], []⟩ "a.ts" =
      buildSpecificDescription ⟨"a.ts", ["x"], [], []⟩ "a.ts" :=
  buildSpecificDescription_dedup_invariant "a.ts" "a.ts" [] [] ["x", "x"] ["x"] [] []
    "a.ts" (by decide) (by decide)

/-! ## Whitespace lemmas: a blank diff parses to no file changes -/

/-- `dropWhile` empties a list exactly when the predicate holds
everywhere. -/
lemma dropWhile_eq_nil_iff_all (p : Char → Bool) (l : List Char) :
    l.dropWhile p = [] ↔ l.all p := by
  induction l with
  | nil => simp
  | cons c cs ih => by_cases h : p c <;> simp [List.dropWhile_cons, h, ih]

/-- Everything `takeWhile` keeps satisfies the predicate. -/
lemma all_takeWhile (p : Char → Bool) (l : List Char) : (l.takeWhile p).all p := by
  induction l with
  | nil => simp
  | cons c cs ih => by_cases h : p c <;> simp [List.takeWhile_cons, h, ih]

/-- A string trims to nothing exactly when all its characters are
whitespace. -/
lemma jsTrimL_eq_nil_iff (l : List Char) : jsTrimL l = [] ↔ l.all isJsSpace := by
  unfold jsTrimL
  rw [List.reverse_eq_nil_iff, dropWhile_eq_nil_iff_all, List.all_reverse]
  constructor
  · intro h
    rw [← List.takeWhile_append_dropWhile isJsSpace l, List.all_append, Bool.and_eq_true]
    exact ⟨all_takeWhile isJsSpace l, h⟩
  · intro h
    rw [← List.takeWhile_append_dropWhile isJsSpace l, List.all_append,
      Bool.and_eq_true] at h
    exact h.2

/-- Every character of every piece of a split was a character of the
input. -/
lemma mem_of_mem_splitOnChar (sep : Char) (l : List Char) (part : List Char)
    (hp : part ∈ splitOnChar sep l) (c : Char) (hc : c ∈ part) : c ∈ l := by
  induction l generalizing part with
  | nil =>
    rw [splitOnChar] at hp
    simp at hp
    subst hp
    simp at hc
  | cons b bs ih =>
    rw [splitOnChar] at hp
    cases hsp : splitOnChar sep bs with
    | nil =>
      rw [hsp] at hp
      simp at hp
      subst hp
      simp at hc
    | cons r rs =>
      rw [hsp] at hp
      by_cases hb : b = sep
      · simp only [hb, if_true] at hp
        rcases List.mem_cons.mp hp with h1 | h1
        · subst h1; simp at hc
        · exact List.mem_cons_of_mem b (ih part (hsp ▸ h1) hc)
      · simp only [hb, if_false] at hp
        rcases List.mem_cons.mp hp with h1 | h1
        · subst h1
          rcases List.mem_cons.mp hc with h2 | h2
          · exact h2 ▸ List.mem_cons_self b bs
          · exact List.mem_cons_of_mem b (ih r (hsp ▸ List.mem_cons_self r rs) h2)
        · exact List.mem_cons_of_mem b (ih part (hsp ▸ List.mem_cons_of_mem r h1) hc)

/-- A line made only of whitespace is not a `+++ b/` header. -/
lemma headerPath_none_of_all_space (line : List Char) (h : line.all isJsSpace) :
    headerPath line = none := by
  cases line with
  | nil => decide
  | cons c cs =>
    have hc : isJsSpace c = true := by
      rw [List.all_cons, Bool.and_eq_true] at h
      exact h.1
    have hlit : litLeads "+++ b/".data (c :: cs) = false := by
      have hd : "+++ b/".data = '+' :: "++ b/".data := by decide
      rw [hd]
      by_cases hch : ('+' : Char) = c
      · exfalso
        rw [← hch] at hc
        exact absurd hc (by decide)
      · simp [litLeads, hch]
    unfold headerPath
    simp [hlit]

/-- Scanning whitespace-only lines from the initial state is a no-op. -/
lemma foldl_processDiffLine_no_header (lines : List (List Char))
    (h : ∀ l ∈ lines, headerPath l = none) :
    lines.foldl processDiffLine ⟨[], "", ⟨"", [], [], []⟩⟩ = ⟨[], "", ⟨"", [], [], []⟩⟩ := by
  induction lines with
  | nil => rfl
  | cons l ls ih =>
    have h1 := h l (List.mem_cons_self l ls)
    have hstep : processDiffLine ⟨[], "", ⟨"", [], [], []⟩⟩ l = ⟨[], "", ⟨"", [], [], []⟩⟩ := by
      simp [processDiffLine, h1]
    rw [List.foldl_cons, hstep]
    exact ih (fun x hx => h x (List.mem_cons_of_mem l hx))

/-- A diff that is blank after trimming yields no file changes. -/
lemma extractFileChanges_of_trim_empty (s : String) (h : jsTrim s = "") :
    extractFileChanges s = [] := by
  have hall : s.data.all isJsSpace := by
    rw [← jsTrimL_eq_nil_iff]
    exact congrArg String.data h
  have hlines : ∀ l ∈ splitOnChar '\n' s.data, headerPath l = none := by
    intro l hl
    refine headerPath_none_of_all_space l ?_
    rw [List.all_eq_true]
    intro c hc
    exact (List.all_eq_true.mp hall) c (mem_of_mem_splitOnChar '\n' s.data l hl c hc)
  unfold extractFileChanges
  rw [foldl_processDiffLine_no_header _ hlines]
  decide

/-- A blank diff synthesizes the fallback message. -/
lemma analyzeSpecificChanges_of_trim_empty (s : String) (h : jsTrim s = "") :
    analyzeSpecificChanges s = "chore: update code" := by
  unfold analyzeSpecificChanges
  rw [extractFileChanges_of_trim_empty s h]

/-- The synthesized message is never the empty string. -/
lemma analyzeSpecificChanges_ne_empty (d : String) : analyzeSpecificChanges d ≠ "" := by
  unfold analyzeSpecificChanges
  cases h : extractFileChanges d with
  | nil => decide
  | cons c cs =>
    intro hc
    have hl := congrArg String.length hc
    rw [String.length_append, String.length_append] at hl
    have h2 : (": " : String).length = 2 := by decide
    have h0 : ("" : String).length = 0 := by decide
    rw [h2, h0] at hl
    omega

/-! ## Claims C1 and C10 -/

/-- Claim C1: `generateCommitMessage` never raises (it is a total
function of the read outcomes — a throwing read is `none`); when both
diffs are blank after trimming it returns the fixed fallback literal
`chore: update code` without invoking the parser/classifier/builder
(the `Bool` component, false = not invoked); and the returned string is
never empty. -/
theorem generateCommitMessage_contract :
    (∀ stagedRead unstagedRead : Option String,
      (generateCommitMessageRun stagedRead unstagedRead).1 ≠ "") ∧
    (∀ s u : String, jsTrim s = "" → jsTrim u = "" →
      generateCommitMessageRun (some s) (some u) = ("chore: update code", false)) := by
  constructor
  · intro stagedRead unstagedRead
    unfold generateCommitMessageRun
    cases stagedRead with
    | none =>
      dsimp only
      decide
    | some diff =>
      dsimp only
      by_cases h1 : jsTrim diff = ""
      · rw [if_pos h1]
        cases unstagedRead with
        | none =>
          dsimp only
          decide
        | some u =>
          dsimp only
          by_cases h2 : jsTrim u = ""
          · rw [if_pos h2]
            decide
          · rw [if_neg h2]
            exact analyzeSpecificChanges_ne_empty diff
      · rw [if_neg h1]
        exact analyzeSpecificChanges_ne_empty diff
  · intro s u h1 h2
    unfold generateCommitMessageRun
    simp [h1, h2]

/-- Witness for `generateCommitMessage_contract`. -/
theorem generateCommitMessage_contract_witness :
    generateCommitMessageRun (some "") (some " \n ") = ("chore: update code", false) :=
  generateCommitMessage_contract.2 "" " \n " (by decide) (by decide)

/-- Claim C10: whenever the staged diff is blank after trimming, the
returned message is `chore: update code` no matter what the unstaged
read produced (non-blank text, blank text, or a throwing read) — so any
two runs with a blank staged diff that differ only in the unstaged diff
return the same message. (When the unstaged diff is non-blank the
analyzer does run, but on the blank staged diff, which yields the same
fallback literal.) -/
theorem emptyStaged_constant_message (s : String) (u : Option String)
    (h : jsTrim s = "") :
    (generateCommitMessageRun (some s) u).1 = "chore: update code" := by
  unfold generateCommitMessageRun
  simp only [h, if_pos rfl]
  cases u with
  | none => rfl
  | some ud =>
    by_cases h2 : jsTrim ud = ""
    · simp [h2]
    · simp [h2]
      exact analyzeSpecificChanges_of_trim_empty s h

/-- Witness for `emptyStaged_constant_message`. -/
theorem emptyStaged_constant_message_witness :
    (generateCommitMessageRun (some "") (some "+function foo()")).1 =
      "chore: update code" :=
  emptyStaged_constant_message "" (some "+function foo()") (by decide)

/-! ## Claim C9 -/

/-- The `+`/`-` analysis never changes which file the open record is
for. -/
lemma processContentLine_file (line : List Char) (ch : FileChange) :
    (processContentLine line ch).file = ch.file := by
  unfold processContentLine
  dsimp only
  split <;> split <;> rfl

/-- The path captured by a header match is non-empty (`(.+)` requires at
least one character). -/
lemma headerPath_path_ne_empty (line : List Char) (p : String)
    (h : headerPath line = some p) : p ≠ "" := by
  unfold headerPath at h
  split at h
  · split at h
    · rename_i hcond
      intro hempty
      apply hcond.1
      exact congrArg String.data ((Option.some.inj h).trans hempty)
    · exact absurd h (by simp)
  · exact absurd h (by simp)

/-- The flushed file list depends on the state only through the record
list, the open path and the open record's file. -/
lemma flushParse_map_file (st st' : ParseState)
    (h1 : st'.fileChanges = st.fileChanges) (h2 : st'.currentFile = st.currentFile)
    (h3 : st'.currentChange.file = st.currentChange.file) :
    (flushParse st').map (·.file) = (flushParse st).map (·.file) := by
  unfold flushParse
  rw [h1, h2, h3]
  split <;> simp [h3]

/-- Invariant of the scanning loop: starting from any state whose open
record matches its open path, the flushed file list after scanning
`lines` is the flushed list before plus one path per `+++ b/` header,
in order. -/
lemma extract_inv (lines : List (List Char)) (st : ParseState)
    (hinv : st.currentChange.file = st.currentFile) :
    (flushParse (lines.foldl processDiffLine st)).map (·.file) =
      (flushParse st).map (·.file) ++ lines.filterMap headerPath := by
  induction lines generalizing st with
  | nil => simp
  | cons l ls ih =>
    rw [List.foldl_cons, List.filterMap_cons]
    cases hl : headerPath l with
    | some p =>
      have hstep : processDiffLine st l = ⟨flushParse st, p, ⟨p, [], [], []⟩⟩ := by
        unfold processDiffLine
        rw [hl]
      rw [hstep, ih ⟨flushParse st, p, ⟨p, [], [], []⟩⟩ rfl]
      have hp : p ≠ "" := headerPath_path_ne_empty l p hl
      have hfl : flushParse ⟨flushParse st, p, ⟨p, [], [], []⟩⟩ =
          flushParse st ++ [⟨p, [], [], []⟩] := by
        unfold flushParse
        simp [hp]
      rw [hfl]
      simp
    | none =>
      by_cases hcf : st.currentFile = ""
      · have hstep : processDiffLine st l = st := by
          unfold processDiffLine
          rw [hl]
          simp [hcf]
        rw [hstep, ih st hinv]
      · have hstep : processDiffLine st l =
            { st with currentChange := processContentLine l st.currentChange } := by
          unfold processDiffLine
          rw [hl]
          simp [hcf]
        rw [hstep, ih _ (by simpa [processContentLine_file] using hinv)]
        rw [flushParse_map_file st { st with currentChange := processContentLine l st.currentChange }
          rfl rfl (by simp [processContentLine_file])]

/-- Claim C9: the parser yields exactly one change set per `+++ b/`
header line, in order of appearance, carrying the captured paths; in
particular a diff with no header yields no change sets, whatever bare
`+`/`-` lines it contains. -/
theorem extractFileChanges_headers (d : String) :
    (extractFileChanges d).map (·.file) =
      (splitOnChar '\n' d.data).filterMap headerPath := by
  unfold extractFileChanges
  rw [extract_inv _ _ rfl]
  have : flushParse ⟨[], "", ⟨"", [], [], []⟩⟩ = [] := by decide
  rw [this]
  rfl

/-! ## Claims C5 and C6 -/

/-- Claim C5: on the existing-repo path, once every operation before the
pull succeeded, (a) the terminal state is `Done` if and only if the push
succeeds, (b) the push of `origin main` is attempted even when the pull
failed, (c) a pull failure whose message contains `couldn't find remote
ref` is swallowed silently, and (d) any other pull failure is reported
as a warning (and, by (a)-(b), still does not abort the flow). -/
theorem existingRepo_pull_policy (env : GitEnv) (repoUrl : String)
    (h : prePullOk env repoUrl) :
    ((initAndPush env repoUrl true).outcome = SyncOutcome.Done ↔ env.pushFails = false) ∧
    GitOp.push "origin" "main" ["--set-upstream"] ∈ (initAndPush env repoUrl true).trace ∧
    (∀ msg, env.pullResult = some msg → jsIncludes msg refNotFound = true →
      (initAndPush env repoUrl true).warnings = []) ∧
    (∀ msg, env.pullResult = some msg → jsIncludes msg refNotFound = false →
      (initAndPush env repoUrl true).warnings = ["Could not pull: " ++ msg]) := by
  obtain ⟨h1, h2, h3⟩ := h
  unfold initAndPush initAndPushExisting
  simp only [if_true, h1, h2, h3]
  refine ⟨?_, ?_, ?_, ?_⟩
  · cases hp : env.pushFails <;> simp
  · simp
  · intro msg hm hinc
    simp [pullPhase, hm, hinc]
  · intro msg hm hinc
    simp [pullPhase, hm, hinc]

/-- Environment for the `existingRepo_pull_policy` witness: an already
initialized repository, no `origin` yet, every operation succeeding
except a pull that fails with an unrelated message.
Fields: isRepo, initFails, checkoutNewBranchFails,
checkoutNewBranchRetryFails, checkoutFails, getRemotesFails, hasOrigin,
removeRemoteFails, addRemoteFails, addFails, generatedMessage,
commitFails, pullResult, pushFails, branchQueryFails, localBranches. -/
def envPullWarn : GitEnv :=
  ⟨true, false, false, false, false, false, false, false, false, false,
   "m", false, some "network down", false, false, []⟩

/-- Witness for `existingRepo_pull_policy`. -/
theorem existingRepo_pull_policy_witness :
    prePullOk envPullWarn "u" ∧
    (initAndPush envPullWarn "u" true).outcome = SyncOutcome.Done ∧
    (initAndPush envPullWarn "u" true).warnings = ["Could not pull: network down"] :=
  ⟨by decide,
   (existingRepo_pull_policy envPullWarn "u" (by decide)).1.mpr rfl,
   (existingRepo_pull_policy envPullWarn "u" (by decide)).2.2.2 "network down" rfl
     (by decide)⟩

/-- Claim C6: on the new-repository path with fresh metadata (branch
listing succeeds and does not contain `main`) and all operations
succeeding, the repository-mutating operations are exactly init,
branch-create `main`, add-all, commit `Initial commit from Forjex`,
remote-add `origin` at the target URL, push `origin main` with
`--set-upstream`, in that order (the only other operation performed is
the read-only branch listing); no pull is ever attempted and the
commit-message synthesizer is never invoked; the outcome is `Done`. -/
theorem newRepo_exact_sequence (env : GitEnv) (repoUrl : String)
    (hInit : env.initFails = false) (hBq : env.branchQueryFails = false)
    (hMain : env.localBranches.contains "main" = false)
    (hCnb : env.checkoutNewBranchFails = false) (hAdd : env.addFails = false)
    (hCommit : env.commitFails = false) (hRemote : env.addRemoteFails = false)
    (hPush : env.pushFails = false) :
    (initAndPush env repoUrl false).trace.filter GitOp.mutates =
      [GitOp.init, GitOp.checkoutNewBranch "main", GitOp.addAll,
       GitOp.commit "Initial commit from Forjex", GitOp.addRemote "origin" repoUrl,
       GitOp.push "origin" "main" ["--set-upstream"]] ∧
    (∀ r b o, GitOp.pull r b o ∉ (initAndPush env repoUrl false).trace) ∧
    GitOp.generateMessage ∉ (initAndPush env repoUrl false).trace ∧
    (initAndPush env repoUrl false).outcome = SyncOutcome.Done := by
  have hMain' : ¬ ("main" ∈ env.localBranches) := by simpa using hMain
  unfold initAndPush initAndPushNew branchPhaseNew
  simp [hInit, hBq, hMain', hCnb, hAdd, hCommit, hRemote, hPush, GitOp.mutates,
    List.filter]

/-- Environment for the `newRepo_exact_sequence` witness: everything
succeeds, no local branches yet. Fields as in `envPullWarn`. -/
def envFresh : GitEnv :=
  ⟨false, false, false, false, false, false, false, false, false, false,
   "m", false, none, false, false, []⟩

/-- Witness for `newRepo_exact_sequence`. -/
theorem newRepo_exact_sequence_witness :
    (initAndPush envFresh "u" false).outcome = SyncOutcome.Done ∧
    GitOp.generateMessage ∉ (initAndPush envFresh "u" false).trace :=
  ⟨(newRepo_exact_sequence envFresh "u" rfl rfl rfl rfl rfl rfl rfl rfl).2.2.2,
   (newRepo_exact_sequence envFresh "u" rfl rfl rfl rfl rfl rfl rfl rfl).2.2.1⟩

end Forjex
